import Mathlib

/-!
Verification of the siplog log-line normalizer (src/main.rs) against its
specification. The Rust source is shallowly embedded: each Rust function or
inline pipeline stage becomes an executable Lean definition, machine integers
become Nat with explicit bounds where they matter, panics become none, and
the per-line pipeline is a pure function of the line text plus the wall-clock
instant that main would read from Local. String manipulation from the Rust
standard library (trim, split with a one-character pattern, replace with the
empty string, i32 parsing) is modelled on the underlying character lists so
that every definition evaluates inside the kernel.
-/

/-! ## String primitives used by the source -/

/-- Whitespace test used by the Rust str trim method. -/
def isWs (c : Char) : Bool := c.isWhitespace

/-- Characters of a string after removing leading and trailing whitespace. -/
def trimChars (l : List Char) : List Char :=
  ((l.dropWhile isWs).reverse.dropWhile isWs).reverse

/-- Model of the Rust str trim method: remove leading and trailing whitespace. -/
def rustTrim (s : String) : String := String.mk (trimChars s.data)

/-- Model of Rust str split with a one-character pattern: splits on every
occurrence of the character, keeping empty pieces, as Rust does. -/
def rustSplitChar (c : Char) (s : String) : List String :=
  (s.data.splitOn c).map String.mk

/-- Model of Rust str replace of a one-character pattern with the empty
string: removes every occurrence of that character. -/
def removeChar (c : Char) (s : String) : String :=
  String.mk (s.data.filter (fun a => a ≠ c))

/-- Model of the Rust replace call with the predicate that keeps only ASCII
characters (replace of every non-ASCII character with the empty string). -/
def keepAscii (s : String) : String :=
  String.mk (s.data.filter (fun a => a.toNat ≤ 127))

/-- Numeric value of a decimal digit character. -/
def digitVal (c : Char) : Nat := c.toNat - '0'.toNat

/-- Decimal value of a digit string. -/
def digitsToNat (l : List Char) : Nat := l.foldl (fun a c => 10 * a + digitVal c) 0

/-- Decimal digit run: nonempty and all decimal digits. -/
def allDigits (l : List Char) : Bool := !l.isEmpty && l.all Char.isDigit

/-- Model of the Rust i32 FromStr parse: an optional sign followed by one or
more ASCII decimal digits, rejecting anything else and values outside the
i32 range. -/
def rustParseI32 (s : String) : Option Int :=
  match s.data with
  | '+' :: ds =>
    if allDigits ds ∧ digitsToNat ds ≤ 2147483647 then some (Int.ofNat (digitsToNat ds)) else none
  | '-' :: ds =>
    if allDigits ds ∧ digitsToNat ds ≤ 2147483648 then some (-(Int.ofNat (digitsToNat ds))) else none
  | ds =>
    if allDigits ds ∧ digitsToNat ds ≤ 2147483647 then some (Int.ofNat (digitsToNat ds)) else none

/-! ## Severity classification (SeverityClassifier) -/

/-- The Level enumeration of the log crate, as used by the source. -/
inductive Level where
  | Error
  | Warn
  | Info
  | Debug
  | Trace
  deriving DecidableEq, Repr

/-- The CustomLevel enumeration from the source: the five canonical levels
plus four extra free-text spellings. -/
inductive CustomLevel where
  | Error
  | Warn
  | Info
  | Debug
  | Trace
  | Err
  | Warning
  | Console
  | Notice
  deriving DecidableEq, Repr

/-- Model of the impl From CustomLevel for Level conversion. -/
def Level.ofCustom : CustomLevel → Level
  | .Error => .Error
  | .Warn => .Warn
  | .Info => .Info
  | .Debug => .Debug
  | .Trace => .Trace
  | .Err => .Error
  | .Warning => .Warn
  | .Console => .Debug
  | .Notice => .Trace

/-- Model of the impl From usize for CustomLevel numeric mapping. -/
def CustomLevel.fromNat (item : Nat) : CustomLevel :=
  if item = 10 then .Trace else
  if item = 20 then .Debug else
  if item = 30 then .Info else
  if item = 40 then .Warn else
  if item = 50 then .Error else
  if item = 60 then .Error else
  .Trace

/-- Model of the impl TryFrom String for CustomLevel free-text recognizer.
The error value carries the message from the source. -/
def CustomLevel.tryFrom (item : String) : Except String CustomLevel :=
  if item = "ERROR" then .ok .Error else
  if item = "WARN" then .ok .Warn else
  if item = "INFO" then .ok .Info else
  if item = "DEBUG" then .ok .Debug else
  if item = "TRACE" then .ok .Trace else
  if item = "ERR" then .ok .Err else
  if item = "WARNING" then .ok .Warn else
  if item = "CONSOLE" then .ok .Console else
  if item = "NOTICE" then .ok .Notice else
  .error "no such leven indicator recognized"

/-- Free-text severity classification down to the canonical Level: the
composition the orchestrator uses. The value none models the NotRecognized
negative result. -/
def classify (s : String) : Option Level :=
  match CustomLevel.tryFrom s with
  | .ok c => some (Level.ofCustom c)
  | .error _ => none

/-- Numeric severity classification used on the structured path. -/
def classifyNumeric (n : Nat) : Level := Level.ofCustom (CustomLevel.fromNat n)

/-- The nine recognized free-text severity tokens. -/
def recognizedLevelTokens : List String :=
  ["ERROR", "WARN", "INFO", "DEBUG", "TRACE", "ERR", "WARNING", "CONSOLE", "NOTICE"]

/-- C1 counterexample: the claim says every n greater than or equal to 50
classifies as Error, but the code classifies the unmapped value 55 as Trace. -/
theorem c1_counterexample : 50 ≤ 55 ∧ classifyNumeric 55 ≠ Level.Error := by
  decide

/-- C1 amended: classify_numeric maps 20 to Debug, 30 to Info, 40 to Warn,
50 and 60 to Error, and every other integer (including every unmapped value
greater than 50) to Trace. -/
theorem c1_numeric_mapping (n : Nat) :
    classifyNumeric n =
      if n = 20 then Level.Debug else
      if n = 30 then Level.Info else
      if n = 40 then Level.Warn else
      if n = 50 ∨ n = 60 then Level.Error else
      Level.Trace := by
  unfold classifyNumeric CustomLevel.fromNat
  split_ifs <;> first | rfl | omega

/-- C2: the nine recognized case-sensitive tokens map to their canonical
severities, and every other token yields the NotRecognized negative result. -/
theorem c2_classify_tokens :
    classify "ERROR" = some Level.Error ∧
    classify "WARN" = some Level.Warn ∧
    classify "INFO" = some Level.Info ∧
    classify "DEBUG" = some Level.Debug ∧
    classify "TRACE" = some Level.Trace ∧
    classify "ERR" = some Level.Error ∧
    classify "WARNING" = some Level.Warn ∧
    classify "CONSOLE" = some Level.Debug ∧
    classify "NOTICE" = some Level.Trace ∧
    ∀ s : String, s ∉ recognizedLevelTokens → classify s = none := by
  refine ⟨rfl, rfl, rfl, rfl, rfl, rfl, rfl, rfl, rfl, ?_⟩
  intro s hs
  unfold classify CustomLevel.tryFrom
  split_ifs <;> simp_all [recognizedLevelTokens]

/-- Witness for C2 at the concrete unrecognized token VERBOSE. -/
theorem c2_classify_tokens_witness :
    ("VERBOSE" : String) ∉ recognizedLevelTokens ∧ classify "VERBOSE" = none :=
  ⟨by decide, c2_classify_tokens.2.2.2.2.2.2.2.2.2 "VERBOSE" (by decide)⟩

/-! ## Date and time (chrono NaiveDateTime model)

The source uses chrono NaiveDateTime in two ways: parse_from_str and format
with the pattern for year-month-day hour:minute:second.3-digit-fraction on
the free-text path, and from_timestamp plus the same format on the
structured path. The model below represents a NaiveDateTime by its civil
components plus a nanosecond field. -/

/-- Model of a chrono NaiveDateTime value: civil date and time of day with
nanoseconds. -/
structure NaiveDateTime where
  year : Nat
  month : Nat
  day : Nat
  hour : Nat
  minute : Nat
  second : Nat
  nano : Nat
  deriving DecidableEq, Repr

/-- Gregorian leap-year test. -/
def isLeapYear (y : Nat) : Bool := y % 4 = 0 && (y % 100 ≠ 0 || y % 400 = 0)

/-- Number of days in a month of the Gregorian calendar. -/
def daysInMonth (y m : Nat) : Nat :=
  if m = 2 then (if isLeapYear y then 29 else 28)
  else if m = 4 ∨ m = 6 ∨ m = 9 ∨ m = 11 then 30
  else 31

/-- Civil date from a number of days since 1970-01-01 (nonnegative days
suffice here because the structured path only sees nonnegative epoch
seconds). Standard era-based conversion, as performed inside chrono. -/
def civilFromDays (z : Nat) : Nat × Nat × Nat :=
  let z := z + 719468
  let era := z / 146097
  let doe := z % 146097
  let yoe := (doe - doe / 1460 + doe / 36524 - doe / 146096) / 365
  let y := yoe + era * 400
  let doy := doe - (365 * yoe + yoe / 4 - yoe / 100)
  let mp := (5 * doy + 2) / 153
  let d := doy - (153 * mp + 2) / 5 + 1
  let m := if mp < 10 then mp + 3 else mp - 9
  (if m ≤ 2 then y + 1 else y, m, d)

/-- Model of chrono NaiveDateTime::from_timestamp on nonnegative seconds.
The chrono function panics when the resulting date falls outside the
representable range (years up to 262143) or the nanosecond field is out of
range; the panic is modelled as none. -/
def NaiveDateTime.fromTimestamp (secs nanos : Nat) : Option NaiveDateTime :=
  let days := secs / 86400
  let sod := secs % 86400
  let ymd := civilFromDays days
  if ymd.1 ≤ 262143 ∧ nanos < 2000000000 then
    some ⟨ymd.1, ymd.2.1, ymd.2.2, sod / 3600, sod % 3600 / 60, sod % 60, nanos⟩
  else
    none

/-- Zero-padded two-digit decimal rendering, as produced by the chrono
format items for month, day, hour, minute and second (all below 100 on
every reachable value). -/
def twoDigits (n : Nat) : String :=
  String.mk [Nat.digitChar (n / 10 % 10), Nat.digitChar (n % 10)]

/-- Zero-padded three-digit decimal rendering, as produced by the chrono
fixed three-digit fractional item from a millisecond value below 1000. -/
def threeDigits (n : Nat) : String :=
  String.mk [Nat.digitChar (n / 100 % 10), Nat.digitChar (n / 10 % 10), Nat.digitChar (n % 10)]

/-- Year rendering: zero-padded to four digits, longer years rendered in
full, as chrono does for the year item. -/
def fourDigitYear (y : Nat) : String :=
  if y < 10000 then
    String.mk [Nat.digitChar (y / 1000 % 10), Nat.digitChar (y / 100 % 10),
      Nat.digitChar (y / 10 % 10), Nat.digitChar (y % 10)]
  else
    Nat.repr y

/-- The date, hour, minute and second portion of the canonical format. -/
def fmtYMDHMS (t : NaiveDateTime) : String :=
  fourDigitYear t.year ++ "-" ++ twoDigits t.month ++ "-" ++ twoDigits t.day ++ " " ++
    twoDigits t.hour ++ ":" ++ twoDigits t.minute ++ ":" ++ twoDigits t.second

/-- Model of chrono format with the canonical pattern: date and time of day
followed by a dot and exactly three fractional-second digits (the
milliseconds, truncated from the nanosecond field). -/
def fmtTimestamp (t : NaiveDateTime) : String :=
  fmtYMDHMS t ++ "." ++ threeDigits (t.nano / 1000000)

/-- Split off up to max leading decimal digits. -/
def takeDigits (max : Nat) (cs : List Char) : List Char × List Char :=
  match max, cs with
  | 0, cs => ([], cs)
  | _, [] => ([], [])
  | m + 1, c :: cs =>
    if c.isDigit then
      let (ds, rest) := takeDigits m cs
      (c :: ds, rest)
    else
      ([], c :: cs)

/-- Expect one literal character. -/
def expectChar (c : Char) (cs : List Char) : Option (List Char) :=
  match cs with
  | a :: rest => if a = c then some rest else none
  | [] => none

/-- Parse a bounded run of decimal digits, requiring at least one. -/
def parseNum (max : Nat) (cs : List Char) : Option (Nat × List Char) :=
  let (ds, rest) := takeDigits max cs
  if ds.isEmpty then none else some (digitsToNat ds, rest)

/-- Parse the optional fractional-second part: either nothing, or a dot
followed by one to nine digits interpreted as a fraction of a second in
nanoseconds (chrono accepts any such precision here, which is why the
source comments that the pattern does not force three digits). -/
def parseFrac (cs : List Char) : Option (Nat × List Char) :=
  match cs with
  | '.' :: rest =>
    let (ds, rest2) := takeDigits 9 rest
    if ds.isEmpty then none
    else some (digitsToNat ds * 10 ^ (9 - ds.length), rest2)
  | _ => some (0, cs)

/-- Model of chrono NaiveDateTime::parse_from_str with the canonical
pattern: year-month-day, one space, hour:minute:second, optional fraction,
with the whole input consumed and the civil fields validated. -/
def parseTimestamp (s : String) : Option NaiveDateTime :=
  match parseNum 6 s.data with
  | none => none
  | some (y, r1) =>
    match expectChar '-' r1 with
    | none => none
    | some r2 =>
      match parseNum 2 r2 with
      | none => none
      | some (mo, r3) =>
        match expectChar '-' r3 with
        | none => none
        | some r4 =>
          match parseNum 2 r4 with
          | none => none
          | some (d, r5) =>
            match expectChar ' ' r5 with
            | none => none
            | some r6 =>
              match parseNum 2 r6 with
              | none => none
              | some (h, r7) =>
                match expectChar ':' r7 with
                | none => none
                | some r8 =>
                  match parseNum 2 r8 with
                  | none => none
                  | some (mi, r9) =>
                    match expectChar ':' r9 with
                    | none => none
                    | some r10 =>
                      match parseNum 2 r10 with
                      | none => none
                      | some (sec, r11) =>
                        match parseFrac r11 with
                        | none => none
                        | some (nano, r12) =>
                          if r12 = [] ∧ 1 ≤ mo ∧ mo ≤ 12 ∧ 1 ≤ d ∧
                              d ≤ daysInMonth y mo ∧ h ≤ 23 ∧ mi ≤ 59 ∧ sec ≤ 59 then
                            some ⟨y, mo, d, h, mi, sec, nano⟩
                          else
                            none

/-! ## Free-text pipeline (the slow path of the main loop) -/

/-- Model of the source-line match test applied to one token inside the main
loop: split the token on the colon character, require exactly two pieces,
remove every bracket character from the second piece, and require that the
result parses as an i32. -/
def sourceTokenMatches (t : String) : Bool :=
  match rustSplitChar ':' t with
  | [_, b] => (rustParseI32 (removeChar ']' (removeChar '[' b))).isSome
  | _ => false

/-- Model of the source-line search loop: return the first matching token
verbatim together with the token list with that token removed. -/
def scanSource : List String → Option String × List String
  | [] => (none, [])
  | t :: rest =>
    if sourceTokenMatches t then (some t, rest)
    else
      let r := scanSource rest
      (r.1, t :: r.2)

/-- Bracket and colon stripping applied to each level candidate token. -/
def stripLevelToken (t : String) : String :=
  removeChar ':' (removeChar ']' (removeChar '[' t))

/-- Model of the level search loop: feed each token, stripped of brackets
and colons, to the TryFrom recognizer; the first recognized token is
removed from the list and its canonical Level returned. -/
def scanLevel : List String → Option Level × List String
  | [] => (none, [])
  | t :: rest =>
    match CustomLevel.tryFrom (stripLevelToken t) with
    | .ok c => (some (Level.ofCustom c), rest)
    | .error _ =>
      let r := scanLevel rest
      (r.1, t :: r.2)

/-- Cleaning applied to each half of a timestamp candidate pair: remove
non-ASCII characters, then bracket characters. -/
def cleanTsToken (t : String) : String :=
  removeChar ']' (removeChar '[' (keepAscii t))

/-- Model of the timestamp search loop over adjacent token pairs: join the
cleaned pair with one space, try the canonical parse, and on the first
success remove both tokens from the list. -/
def scanTimestamp : List String → Option NaiveDateTime × List String
  | [] => (none, [])
  | [t] => (none, [t])
  | a :: b :: rest =>
    match parseTimestamp (cleanTsToken a ++ " " ++ cleanTsToken b) with
    | some ts => (some ts, rest)
    | none =>
      let r := scanTimestamp (b :: rest)
      (r.1, a :: r.2)

/-- A normalized free-text record just before rendering: exactly the
arguments main passes to custom_print. -/
structure FreeOutput where
  level : Level
  timestamp : String
  line : Option String
  message : String
  deriving DecidableEq, Repr

/-- Model of the free-text branch of the main loop, from the trim call to
the custom_print call. The now argument stands for the Local::now value the
loop reads when no timestamp was extracted from the line. -/
def processLine (input : String) (now : NaiveDateTime) : FreeOutput :=
  let trimmed := rustTrim input
  let split0 := rustSplitChar ' ' trimmed
  let r1 := scanSource split0
  let r2 := scanLevel r1.2
  let r3 := scanTimestamp r2.2
  let level := r2.1.getD Level.Info
  let timestamp :=
    match r3.1 with
    | some t => fmtTimestamp t
    | none => fmtTimestamp now
  let message := rustTrim (r3.2.foldl (fun acc s => acc ++ s ++ " ") "")
  ⟨level, timestamp, r1.1, message⟩

/-- Fixed level label (five characters, space padded) and color code used by
both printers in the source. -/
def levelLabelColor : Level → String × Nat
  | .Error => ("ERROR", 1)
  | .Warn => ("WARN ", 3)
  | .Info => ("INFO ", 7)
  | .Debug => ("DEBUG", 4)
  | .Trace => ("TRACE", 5)

/-- Model of the free-standing custom_print renderer. -/
def customPrint (o : FreeOutput) : String :=
  let lc := levelLabelColor o.level
  match o.line with
  | some line =>
    "\x1B[1;3" ++ toString lc.2 ++ "m[" ++ lc.1 ++ " " ++ o.timestamp ++ " " ++ line ++
      "]\x1B[0m " ++ o.message
  | none =>
    "\x1B[1;3" ++ toString lc.2 ++ "m[" ++ lc.1 ++ " " ++ o.timestamp ++ "]\x1B[0m " ++ o.message

/-- Strip one leading occurrence of the character if present. -/
def stripOneLeading (c : Char) (l : List Char) : List Char :=
  match l with
  | a :: rest => if a = c then rest else a :: rest
  | [] => []

/-- Modelled from the spec wording of the source-location match in claim C3:
after stripping a single leading open bracket and a single trailing close
bracket, the token must contain exactly one colon and the substring after
the colon must parse as an integer. -/
def specSourceTokenMatches (t : String) : Bool :=
  let u := stripOneLeading '[' t.data
  let u := (stripOneLeading ']' u.reverse).reverse
  match u.splitOn ':' with
  | [_, b] => (rustParseI32 (String.mk b)).isSome
  | _ => false

/-! ## Structured records (SipAppJson and its printer) -/

/-- The fixed structured record schema, as deserialized by serde. Usize and
u64 fields are Nat; the machine bounds enter where they matter (the u64
time bound in claim C7, the parse-time range checks below). -/
structure SipAppJson where
  level : Nat
  time : Nat
  msg : String
  pid : Nat
  hostname : String
  type_ : Option String
  stack : Option String
  errno : Option String
  syscall : Option String
  address : Option String
  port : Option Nat
  secret : Option String
  v : Nat
  deriving DecidableEq, Repr

/-- The timestamp computation of SipAppJson::custom_print: u64 division and
subtraction into seconds and nanoseconds, the two try_into unwraps (modelled
by the i64 and u32 range conditions), and the panicking from_timestamp
call. A none value models a panic. -/
def sipPrintTimestamp (time : Nat) : Option String :=
  let seconds := time / 1000
  let nanoseconds := 1000000 * (time - 1000 * (time / 1000))
  if seconds < 2 ^ 63 ∧ nanoseconds < 2 ^ 32 then
    (NaiveDateTime.fromTimestamp seconds nanoseconds).map fmtTimestamp
  else
    none

/-- The extras block of SipAppJson::custom_print between its brackets,
built exactly as the source builds it by successive format appends. -/
def extrasCore (j : SipAppJson) : String :=
  let p := "v:" ++ Nat.repr j.v
  let p := p ++ " pid:" ++ Nat.repr j.pid
  let p := p ++ " hostname:" ++ rustTrim j.hostname
  let p := match j.type_ with | some t => p ++ " type:" ++ rustTrim t | none => p
  let p := match j.stack with | some s => p ++ " stack:" ++ rustTrim s | none => p
  let p := match j.errno with | some e => p ++ " errno:" ++ rustTrim e | none => p
  let p := match j.syscall with | some s => p ++ " syscall:" ++ rustTrim s | none => p
  let p := match j.address with | some a => p ++ " address:" ++ rustTrim a | none => p
  let p := match j.port with | some n => p ++ " port:" ++ Nat.repr n | none => p
  let p := match j.secret with | some s => p ++ " secret:" ++ rustTrim s | none => p
  p

/-- Model of SipAppJson::custom_print: header with level label and
timestamp, extras block, then the trimmed message; none models the panic
inside the timestamp computation. -/
def sipCustomPrint (j : SipAppJson) : Option String :=
  (sipPrintTimestamp j.time).map fun timestamp =>
    let lc := levelLabelColor (classifyNumeric j.level)
    "\x1B[1;3" ++ Nat.repr lc.2 ++ "m[" ++ lc.1 ++ " " ++ timestamp ++ "]" ++
      " \x1B[1;32m[" ++ extrasCore j ++ "]" ++ "\x1B[0m " ++ rustTrim j.msg

/-- Space-separated join of rendered fields. -/
def joinSpace : List String → String
  | [] => ""
  | [x] => x
  | x :: xs => x ++ " " ++ joinSpace xs

/-- The extras fields present in a record, rendered as key colon value with
trimmed values, in the fixed schema order; absent optional fields
contribute nothing. Stated from the spec wording of claim C6 for comparison
with extrasCore. -/
def extrasFields (j : SipAppJson) : List String :=
  ["v:" ++ Nat.repr j.v, "pid:" ++ Nat.repr j.pid, "hostname:" ++ rustTrim j.hostname] ++
    (j.type_.map (fun t => "type:" ++ rustTrim t)).toList ++
    (j.stack.map (fun s => "stack:" ++ rustTrim s)).toList ++
    (j.errno.map (fun e => "errno:" ++ rustTrim e)).toList ++
    (j.syscall.map (fun s => "syscall:" ++ rustTrim s)).toList ++
    (j.address.map (fun a => "address:" ++ rustTrim a)).toList ++
    (j.port.map (fun n => "port:" ++ Nat.repr n)).toList ++
    (j.secret.map (fun s => "secret:" ++ rustTrim s)).toList

/-! ## Serde model for the structured parse -/

/-- A parsed JSON value. Numbers are modelled as integers, which covers
every numeric field of the fixed schema; a non-integer number in a schema
field would be rejected exactly like any other wrong type. -/
inductive Json where
  | null
  | bool (b : Bool)
  | num (n : Int)
  | str (s : String)
  | arr (elems : List Json)
  | obj (fields : List (String × Json))

/-- Partial deserializer state: one slot per schema field recording whether
the field has been seen and with which decoded value. Optional schema
fields decode to an inner Option, so that a field given as null counts as
seen (serde rejects duplicates even of null-valued optional fields). -/
structure PartialSip where
  level : Option Nat
  time : Option Nat
  msg : Option String
  pid : Option Nat
  hostname : Option String
  type_ : Option (Option String)
  stack : Option (Option String)
  errno : Option (Option String)
  syscall : Option (Option String)
  address : Option (Option String)
  port : Option (Option Nat)
  secret : Option (Option String)
  v : Option Nat

/-- The initial deserializer state: nothing seen. -/
def initPartialSip : PartialSip :=
  ⟨none, none, none, none, none, none, none, none, none, none, none, none, none⟩

/-- Decode a usize or u64 field: an integer in the 64-bit unsigned range. -/
def asU64 : Json → Option Nat
  | .num n => if 0 ≤ n ∧ n < 2 ^ 64 then some n.toNat else none
  | _ => none

/-- Decode a string field. -/
def asStr : Json → Option String
  | .str s => some s
  | _ => none

/-- Decode an optional string field: null is an absent value, a string is a
present value, anything else is a type error. -/
def asNullableStr : Json → Option (Option String)
  | .null => some none
  | .str s => some (some s)
  | _ => none

/-- Decode the optional u16 port field. -/
def asNullableU16 : Json → Option (Option Nat)
  | .null => some none
  | .num n => if 0 ≤ n ∧ n < 2 ^ 16 then some (some n.toNat) else none
  | _ => none

/-- The thirteen field names of the schema as serde sees them (the type_
field is renamed to type by its serde attribute). -/
def knownSipKeys : List String :=
  ["level", "time", "msg", "pid", "hostname", "type", "stack", "errno",
    "syscall", "address", "port", "secret", "v"]

/-- One step of the serde map visitor: dispatch on the key, reject a
duplicate or wrongly typed field, and ignore an unknown key (the derive has
no deny-unknown-fields attribute). -/
def sipStep (st : PartialSip) (kv : String × Json) : Option PartialSip :=
  if kv.1 = "level" then
    match st.level, asU64 kv.2 with
    | none, some n => some { st with level := some n }
    | _, _ => none
  else if kv.1 = "time" then
    match st.time, asU64 kv.2 with
    | none, some n => some { st with time := some n }
    | _, _ => none
  else if kv.1 = "msg" then
    match st.msg, asStr kv.2 with
    | none, some s => some { st with msg := some s }
    | _, _ => none
  else if kv.1 = "pid" then
    match st.pid, asU64 kv.2 with
    | none, some n => some { st with pid := some n }
    | _, _ => none
  else if kv.1 = "hostname" then
    match st.hostname, asStr kv.2 with
    | none, some s => some { st with hostname := some s }
    | _, _ => none
  else if kv.1 = "type" then
    match st.type_, asNullableStr kv.2 with
    | none, some o => some { st with type_ := some o }
    | _, _ => none
  else if kv.1 = "stack" then
    match st.stack, asNullableStr kv.2 with
    | none, some o => some { st with stack := some o }
    | _, _ => none
  else if kv.1 = "errno" then
    match st.errno, asNullableStr kv.2 with
    | none, some o => some { st with errno := some o }
    | _, _ => none
  else if kv.1 = "syscall" then
    match st.syscall, asNullableStr kv.2 with
    | none, some o => some { st with syscall := some o }
    | _, _ => none
  else if kv.1 = "address" then
    match st.address, asNullableStr kv.2 with
    | none, some o => some { st with address := some o }
    | _, _ => none
  else if kv.1 = "port" then
    match st.port, asNullableU16 kv.2 with
    | none, some o => some { st with port := some o }
    | _, _ => none
  else if kv.1 = "secret" then
    match st.secret, asNullableStr kv.2 with
    | none, some o => some { st with secret := some o }
    | _, _ => none
  else if kv.1 = "v" then
    match st.v, asU64 kv.2 with
    | none, some n => some { st with v := some n }
    | _, _ => none
  else
    some st

/-- Final step of the serde visitor: every required field must have been
seen; an unseen optional field defaults to an absent value. -/
def sipFinish (st : PartialSip) : Option SipAppJson :=
  match st.level, st.time, st.msg, st.pid, st.hostname, st.v with
  | some level, some time, some msg, some pid, some hostname, some v =>
    some ⟨level, time, msg, pid, hostname, st.type_.getD none, st.stack.getD none,
      st.errno.getD none, st.syscall.getD none, st.address.getD none,
      st.port.getD none, st.secret.getD none, v⟩
  | _, _, _, _, _, _ => none

/-- Model of the serde_json typed parse at the JSON value level: a value is
a structured record exactly when it is an object whose fields deserialize
per the schema, with unknown keys ignored. -/
def sipFromJson : Json → Option SipAppJson
  | .obj fields => (fields.foldlM sipStep initPartialSip).bind sipFinish
  | _ => none

/-! ## Claim C3: the source-location scan -/

/-- C3 counterexample: the token a:[42] matches in the code (the code
removes every bracket from the text after the colon before the integer
parse, so it reads 42), while the predicate claimed in C3 does not match it
(after stripping the outer brackets the text after the colon still starts
with a bracket and is not an integer). -/
theorem c3_counterexample :
    (scanSource ["a:[42]"]).1 = some "a:[42]" ∧ specSourceTokenMatches "a:[42]" = false := by
  exact ⟨rfl, rfl⟩

/-- C3 amended: a token matches exactly when the raw token contains exactly
one colon and the text after the colon, with every bracket character
removed, parses as an i32 (the sourceTokenMatches predicate); the first
matching token wins, is removed from the list, and is returned verbatim
with its brackets intact. -/
theorem c3_source_scan (ts : List String) :
    (scanSource ts).1 = ts.find? sourceTokenMatches ∧
    (scanSource ts).2 =
      (match ts.find? sourceTokenMatches with
       | some t => ts.erase t
       | none => ts) := by
  induction ts with
  | nil => exact ⟨rfl, rfl⟩
  | cons a rest ih =>
    by_cases h : sourceTokenMatches a
    · refine ⟨?_, ?_⟩ <;>
        simp [scanSource, h, List.find?_cons_of_pos _ h, List.erase_cons]
    · have hfind : (a :: rest).find? sourceTokenMatches = rest.find? sourceTokenMatches :=
        List.find?_cons_of_neg _ (by simpa using h)
      refine ⟨?_, ?_⟩
      · rw [hfind]
        simpa [scanSource, h] using ih.1
      · rw [hfind]
        rcases hr : rest.find? sourceTokenMatches with _ | t
        · have := ih.2
          rw [hr] at this
          simp [scanSource, h, this]
        · have ht : sourceTokenMatches t := List.find?_some hr
          have hne : (a == t) = false := by
            simp only [beq_eq_false_iff_ne, ne_eq]
            exact fun he => h (he ▸ ht)
          have := ih.2
          rw [hr] at this
          simp [scanSource, h, this, List.erase_cons, hne]

/-! ## Claim C6: the extras block -/

/-- Reassociation step merging a separator space into a following literal. -/
theorem strMergeSep (b c : String) (h : " " ++ b = c) (r : String) :
    " " ++ (b ++ r) = c ++ r := by
  rw [← String.append_assoc, h]

/-- Merge of the space separator into the pid key. -/
theorem mergePid (r : String) : " " ++ ("pid:" ++ r) = " pid:" ++ r :=
  strMergeSep _ _ rfl r

/-- Merge of the space separator into the hostname key. -/
theorem mergeHostname (r : String) : " " ++ ("hostname:" ++ r) = " hostname:" ++ r :=
  strMergeSep _ _ rfl r

/-- Merge of the space separator into the type key. -/
theorem mergeType (r : String) : " " ++ ("type:" ++ r) = " type:" ++ r :=
  strMergeSep _ _ rfl r

/-- Merge of the space separator into the stack key. -/
theorem mergeStack (r : String) : " " ++ ("stack:" ++ r) = " stack:" ++ r :=
  strMergeSep _ _ rfl r

/-- Merge of the space separator into the errno key. -/
theorem mergeErrno (r : String) : " " ++ ("errno:" ++ r) = " errno:" ++ r :=
  strMergeSep _ _ rfl r

/-- Merge of the space separator into the syscall key. -/
theorem mergeSyscall (r : String) : " " ++ ("syscall:" ++ r) = " syscall:" ++ r :=
  strMergeSep _ _ rfl r

/-- Merge of the space separator into the address key. -/
theorem mergeAddress (r : String) : " " ++ ("address:" ++ r) = " address:" ++ r :=
  strMergeSep _ _ rfl r

/-- Merge of the space separator into the port key. -/
theorem mergePort (r : String) : " " ++ ("port:" ++ r) = " port:" ++ r :=
  strMergeSep _ _ rfl r

/-- Merge of the space separator into the secret key. -/
theorem mergeSecret (r : String) : " " ++ ("secret:" ++ r) = " secret:" ++ r :=
  strMergeSep _ _ rfl r

set_option maxHeartbeats 2000000 in
/-- C6: the extras block lists exactly the fields present, each rendered as
key colon value with the value trimmed, in the fixed schema order, with
absent optional fields omitted. -/
theorem c6_extras_block (j : SipAppJson) :
    extrasCore j = joinSpace (extrasFields j) := by
  obtain ⟨lv, tm, ms, pid, hn, ty, st, er, sy, ad, po, se, v⟩ := j
  cases ty <;> cases st <;> cases er <;> cases sy <;> cases ad <;> cases po <;> cases se <;>
    simp only [extrasCore, extrasFields, joinSpace, Option.map, Option.toList,
      List.cons_append, List.nil_append, List.append_nil, String.append_assoc,
      mergePid, mergeHostname, mergeType, mergeStack, mergeErrno, mergeSyscall,
      mergeAddress, mergePort, mergeSecret]

/-! ## Claim C10: unknown fields are ignored -/

/-- A visitor step on an unknown key leaves the deserializer state
unchanged. -/
theorem sipStep_unknown (st : PartialSip) (k : String) (val : Json)
    (hk : k ∉ knownSipKeys) : sipStep st (k, val) = some st := by
  simp only [knownSipKeys, List.mem_cons, List.not_mem_nil, or_false, not_or] at hk
  obtain ⟨h1, h2, h3, h4, h5, h6, h7, h8, h9, h10, h11, h12, h13⟩ := hk
  unfold sipStep
  rw [if_neg h1, if_neg h2, if_neg h3, if_neg h4, if_neg h5, if_neg h6, if_neg h7,
    if_neg h8, if_neg h9, if_neg h10, if_neg h11, if_neg h12, if_neg h13]

/-- C10: an object that parses as a structured record still parses to the
same record after an additional field with an unknown key is appended; the
unknown field is ignored rather than making the line fall back to plain
text. -/
theorem c10_unknown_fields (fields : List (String × Json)) (k : String) (val : Json)
    (r : SipAppJson) (h : sipFromJson (Json.obj fields) = some r)
    (hk : k ∉ knownSipKeys) :
    sipFromJson (Json.obj (fields ++ [(k, val)])) = some r := by
  simp only [sipFromJson] at h ⊢
  obtain ⟨st, hst, hfin⟩ := Option.bind_eq_some.1 h
  rw [List.foldlM_append]
  rw [hst]
  simp [List.foldlM, sipStep_unknown st k val hk, hfin]

/-- Witness record for C10. -/
def c10Record : SipAppJson :=
  ⟨50, 1000, "fail", 1, "h", none, none, none, none, none, none, none, 0⟩

/-- Witness object fields for C10: the required schema fields only. -/
def c10Fields : List (String × Json) :=
  [("level", Json.num 50), ("time", Json.num 1000), ("msg", Json.str "fail"),
    ("pid", Json.num 1), ("hostname", Json.str "h"), ("v", Json.num 0)]

/-- Witness for C10: appending an unknown requestId field to a parsing
object keeps it parsing to the same record. -/
theorem c10_unknown_fields_witness :
    sipFromJson (Json.obj (c10Fields ++ [("requestId", Json.str "abc")])) = some c10Record :=
  c10_unknown_fields c10Fields "requestId" (Json.str "abc") c10Record rfl (by decide)

/-! ## Claims C7 and C9: the structured timestamp -/

/-- A decimal digit character test for the rendered digits. -/
theorem digitChar_isDigit {m : Nat} (h : m < 10) : (Nat.digitChar m).isDigit = true := by
  interval_cases m <;> rfl

/-- C7: whenever the structured printer renders a timestamp for the epoch
millisecond value t (that is, the computation does not panic), the rendered
string is the canonical format of the datetime built from the components
seconds t / 1000 and nanoseconds (t mod 1000) * 1000000, and it ends in a
dot followed by exactly three decimal digit characters, the zero-padded
milliseconds. -/
theorem c7_structured_timestamp (t : Nat) (s : String)
    (h : sipPrintTimestamp t = some s) :
    (NaiveDateTime.fromTimestamp (t / 1000) (t % 1000 * 1000000)).map fmtTimestamp = some s ∧
    ∃ pre, s = pre ++ "." ++ threeDigits (t % 1000) ∧
      (threeDigits (t % 1000)).length = 3 ∧
      ∀ c ∈ (threeDigits (t % 1000)).data, c.isDigit := by
  have hn : 1000000 * (t - 1000 * (t / 1000)) = t % 1000 * 1000000 := by omega
  simp only [sipPrintTimestamp] at h
  split_ifs at h with hc
  rw [hn] at h
  refine ⟨h, ?_⟩
  obtain ⟨dt, hdt, hfmt⟩ := Option.map_eq_some'.1 h
  have hnano : dt.nano = t % 1000 * 1000000 := by
    simp only [NaiveDateTime.fromTimestamp] at hdt
    split_ifs at hdt with hd
    cases Option.some.inj hdt
    rfl
  have hms : dt.nano / 1000000 = t % 1000 := by
    rw [hnano]
    omega
  refine ⟨fmtYMDHMS dt, ?_, rfl, ?_⟩
  · rw [← hfmt]
    unfold fmtTimestamp
    rw [hms]
  · intro c hc2
    simp only [threeDigits, List.mem_cons] at hc2
    rcases hc2 with h1 | h1 | h1 | h1 <;> first
      | (subst h1; exact digitChar_isDigit (Nat.mod_lt _ (by norm_num)))
      | cases h1

/-- Witness for C7 at the concrete epoch millisecond value 1500. -/
theorem c7_structured_timestamp_witness :
    (NaiveDateTime.fromTimestamp (1500 / 1000) (1500 % 1000 * 1000000)).map fmtTimestamp =
        some "1970-01-01 00:00:01.500" ∧
    ∃ pre, "1970-01-01 00:00:01.500" = pre ++ "." ++ threeDigits (1500 % 1000) ∧
      (threeDigits (1500 % 1000)).length = 3 ∧
      ∀ c ∈ (threeDigits (1500 % 1000)).data, c.isDigit :=
  c7_structured_timestamp 1500 "1970-01-01 00:00:01.500" rfl

/-- C9: the per-line pipeline can panic. For the well-typed structured
record with the u64 time value 18446744073709551615 the from_timestamp call
panics (its seconds value lies outside the chrono representable date
range), modelled here by the none result of the printer. -/
theorem c9_panic_reachable :
    sipCustomPrint
      ⟨30, 18446744073709551615, "boom", 1, "host",
        none, none, none, none, none, none, none, 0⟩ = none := by
  rfl

/-! ## Claims C4, C5 and C8: the free-text pipeline

The supporting lemmas show that splitting a trimmed line on single spaces
and rejoining with trailing spaces plus a final trim is the identity, and
that a scan that finds nothing leaves the token list unchanged. -/

/-- Dropping while a predicate holds is idempotent. -/
theorem dropWhile_idem (p : Char → Bool) (l : List Char) :
    (l.dropWhile p).dropWhile p = l.dropWhile p := by
  induction l with
  | nil => rfl
  | cons a l ih =>
    by_cases h : p a
    · simp [List.dropWhile_cons, h, ih]
    · simp [List.dropWhile_cons, h]

/-- The head surviving a dropWhile refutes the predicate. -/
theorem dropWhile_cons_not (p : Char → Bool) (l : List Char) (c : Char) (t : List Char)
    (h : l.dropWhile p = c :: t) : p c = false := by
  induction l with
  | nil => cases h
  | cons a l ih =>
    by_cases hp : p a
    · rw [List.dropWhile_cons, if_pos hp] at h
      exact ih h
    · rw [List.dropWhile_cons, if_neg hp] at h
      cases h
      exact Bool.not_eq_true _ ▸ eq_false_of_ne_true hp

/-- Appending one space and dropping leading whitespace. -/
theorem dropWhile_append_ws (l : List Char) :
    (l ++ [' ']).dropWhile isWs =
      (if l.dropWhile isWs = [] then [] else l.dropWhile isWs ++ [' ']) := by
  induction l with
  | nil => rfl
  | cons a l ih =>
    by_cases h : isWs a
    · simpa [List.dropWhile_cons, h] using ih
    · simp [List.dropWhile_cons, h]

/-- Appending one trailing space does not change the trimmed characters. -/
theorem trimChars_append_space (l : List Char) : trimChars (l ++ [' ']) = trimChars l := by
  unfold trimChars
  rw [dropWhile_append_ws]
  by_cases h : l.dropWhile isWs = []
  · simp [h]
  · rw [if_neg h]
    have hws : isWs ' ' = true := rfl
    simp [List.reverse_append, List.dropWhile_cons, hws]

/-- The trimmed characters have no leading whitespace left. -/
theorem dropWhile_trimChars (l : List Char) : (trimChars l).dropWhile isWs = trimChars l := by
  rcases ht : trimChars l with _ | ⟨c, t⟩
  · rfl
  · have hpre : (c :: t) <+: l.dropWhile isWs := by
      rw [← ht]
      unfold trimChars
      refine List.reverse_suffix.1 ?_
      rw [List.reverse_reverse]
      exact List.dropWhile_suffix _
    obtain ⟨r, hr⟩ := hpre
    have hc : isWs c = false :=
      dropWhile_cons_not isWs l c (t ++ r) (by rw [hr.symm, List.cons_append])
    rw [List.dropWhile_cons, if_neg (by simp [hc])]

/-- Trimming is idempotent. -/
theorem trimChars_idem (l : List Char) : trimChars (trimChars l) = trimChars l := by
  show ((((trimChars l).dropWhile isWs).reverse.dropWhile isWs)).reverse = trimChars l
  rw [dropWhile_trimChars]
  have h2 : (trimChars l).reverse = (l.dropWhile isWs).reverse.dropWhile isWs := by
    unfold trimChars
    rw [List.reverse_reverse]
  rw [h2, dropWhile_idem, ← h2, List.reverse_reverse]

/-- The character content of the message accumulation loop. -/
theorem foldl_push_data (ts : List (List Char)) (acc : String) :
    (List.foldl (fun a s => a ++ s ++ " ") acc (ts.map String.mk)).data =
      acc.data ++ (ts.map (fun t => t ++ [' '])).flatten := by
  induction ts generalizing acc with
  | nil => simp
  | cons t ts ih =>
    simp only [List.map_cons, List.foldl_cons, List.flatten_cons]
    rw [ih]
    have hd : (acc ++ String.mk t ++ " ").data = acc.data ++ t ++ [' '] := by
      rw [String.data_append, String.data_append]
    rw [hd]
    simp [List.append_assoc]

/-- Unfolding the two-element intercalate step. -/
theorem intercalate_space_cons_cons (t t2 : List Char) (rest : List (List Char)) :
    [' '].intercalate (t :: t2 :: rest) = t ++ [' '] ++ [' '].intercalate (t2 :: rest) := by
  simp [List.intercalate, List.intersperse, List.append_assoc]

/-- Joining with trailing spaces versus intercalating with spaces. -/
theorem flatten_map_space (ts : List (List Char)) (h : ts ≠ []) :
    (ts.map (fun t => t ++ [' '])).flatten = [' '].intercalate ts ++ [' '] := by
  induction ts with
  | nil => cases h rfl
  | cons t rest ih =>
    cases rest with
    | nil => simp [List.intercalate, List.intersperse]
    | cons t2 rest2 =>
      have hih := ih (by simp)
      simp only [List.map_cons, List.flatten_cons] at hih ⊢
      rw [hih, intercalate_space_cons_cons]
      simp [List.append_assoc]

/-- The split on a single character never yields an empty token list. -/
theorem splitOn_ne_nil (c : Char) (l : List Char) : l.splitOn c ≠ [] := by
  unfold List.splitOn
  exact List.splitOnP_ne_nil _ _

/-- Rebuilding the message from the tokens of a trimmed line restores the
trimmed line: the tokenizer splits on single spaces keeping empty tokens,
and the accumulation loop appends every token with one trailing space and
trims the result. -/
theorem message_reassembles (s : String) :
    rustTrim ((rustSplitChar ' ' (rustTrim s)).foldl (fun acc t => acc ++ t ++ " ") "") =
      rustTrim s := by
  apply String.ext
  show trimChars (List.foldl (fun acc t => acc ++ t ++ " ") ""
      (((trimChars s.data).splitOn ' ').map String.mk)).data = trimChars s.data
  rw [foldl_push_data, flatten_map_space _ (splitOn_ne_nil ' ' (trimChars s.data)),
    List.intercalate_splitOn]
  show trimChars ([] ++ (trimChars s.data ++ [' '])) = trimChars s.data
  rw [List.nil_append, trimChars_append_space, trimChars_idem]

/-- A source scan that finds nothing leaves the token list unchanged. -/
theorem scanSource_none (ts : List String) (h : (scanSource ts).1 = none) :
    (scanSource ts).2 = ts := by
  induction ts with
  | nil => rfl
  | cons a rest ih =>
    by_cases hm : sourceTokenMatches a
    · simp [scanSource, hm] at h
    · simp only [scanSource, hm, Bool.false_eq_true, if_false] at h ⊢
      rw [ih h]

/-- A level scan that finds nothing leaves the token list unchanged. -/
theorem scanLevel_none (ts : List String) (h : (scanLevel ts).1 = none) :
    (scanLevel ts).2 = ts := by
  induction ts with
  | nil => rfl
  | cons a rest ih =>
    rcases hm : CustomLevel.tryFrom (stripLevelToken a) with c | e
    · simp only [scanLevel, hm] at h ⊢
      rw [ih h]
    · simp [scanLevel, hm] at h

/-- A timestamp scan that finds nothing leaves the token list unchanged. -/
theorem scanTimestamp_none (ts : List String) (h : (scanTimestamp ts).1 = none) :
    (scanTimestamp ts).2 = ts := by
  induction ts with
  | nil => rfl
  | cons a rest ih =>
    cases rest with
    | nil => rfl
    | cons b rest2 =>
      rcases hp : parseTimestamp (cleanTsToken a ++ " " ++ cleanTsToken b) with _ | ts0
      · simp only [scanTimestamp, hp] at h ⊢
        rw [ih h]
      · simp [scanTimestamp, hp] at h

/-- C4: a line in which no token matches the source-location scan, none
matches the level scan, and no adjacent pair parses as a timestamp renders
with severity Info, the current wall-clock instant as its timestamp, no
location, and the full trimmed original line as its message. -/
theorem c4_defaults (input : String) (now : NaiveDateTime)
    (hsrc : (scanSource (rustSplitChar ' ' (rustTrim input))).1 = none)
    (hlvl : (scanLevel (rustSplitChar ' ' (rustTrim input))).1 = none)
    (hts : (scanTimestamp (rustSplitChar ' ' (rustTrim input))).1 = none) :
    processLine input now = ⟨Level.Info, fmtTimestamp now, none, rustTrim input⟩ := by
  simp only [processLine]
  rw [scanSource_none _ hsrc, scanLevel_none _ hlvl, scanTimestamp_none _ hts,
    hsrc, hlvl, hts, message_reassembles]
  rfl

/-- Witness for C4 at a concrete uninformative line. -/
theorem c4_defaults_witness :
    (scanSource (rustSplitChar ' ' (rustTrim "lorem  ipsum dolor"))).1 = none ∧
    (scanLevel (rustSplitChar ' ' (rustTrim "lorem  ipsum dolor"))).1 = none ∧
    (scanTimestamp (rustSplitChar ' ' (rustTrim "lorem  ipsum dolor"))).1 = none ∧
    processLine "lorem  ipsum dolor" ⟨2024, 5, 6, 7, 8, 9, 0⟩ =
      ⟨Level.Info, fmtTimestamp ⟨2024, 5, 6, 7, 8, 9, 0⟩, none, rustTrim "lorem  ipsum dolor"⟩ :=
  ⟨rfl, rfl, rfl, c4_defaults "lorem  ipsum dolor" ⟨2024, 5, 6, 7, 8, 9, 0⟩ rfl rfl rfl⟩

/-- C5 counterexample: on the example line the extracted source location is
the whole token with its brackets intact, not the bracketless path and line
number stated in the claim. -/
theorem c5_counterexample :
    (processLine "2023-06-01 12:00:00.500 ERROR [/src/app.rs:42] boom"
        ⟨2024, 1, 1, 0, 0, 0, 0⟩).line = some "[/src/app.rs:42]" ∧
    (some "[/src/app.rs:42]" : Option String) ≠ some "/src/app.rs:42" := by
  exact ⟨rfl, by decide⟩

/-- C5 amended: the example line extracts timestamp 2023-06-01
12:00:00.500, severity Error, the verbatim source-location token
enclosed in its brackets, and the message boom, independently of the
wall-clock instant. -/
theorem c5_extraction (now : NaiveDateTime) :
    processLine "2023-06-01 12:00:00.500 ERROR [/src/app.rs:42] boom" now =
      ⟨Level.Error, "2023-06-01 12:00:00.500", some "[/src/app.rs:42]", "boom"⟩ := by
  rfl

/-- C8 counterexample: feeding the same malformed JSON line twice, at two
wall-clock instants, produces two different outputs, because the line
contains no extractable timestamp and the pipeline substitutes the current
instant. -/
theorem c8_counterexample :
    processLine "\x7b" ⟨2023, 1, 1, 0, 0, 0, 0⟩ ≠ processLine "\x7b" ⟨2024, 1, 1, 0, 0, 0, 0⟩ := by
  decide

/-- C8 amended: the free-text pipeline is a pure function of the line text
and the wall-clock instant, with no other state: the severity, location and
message do not depend on the clock at all, and when the line contains an
extractable timestamp the whole output is clock-independent, so feeding the
same malformed JSON line twice gives identical output whenever the clock
reads equal instants or the line carries its own timestamp. -/
theorem c8_clock_dependence (input : String) (now1 now2 : NaiveDateTime) :
    (processLine input now1).level = (processLine input now2).level ∧
    (processLine input now1).line = (processLine input now2).line ∧
    (processLine input now1).message = (processLine input now2).message ∧
    ((scanTimestamp (scanLevel (scanSource
        (rustSplitChar ' ' (rustTrim input))).2).2).1.isSome = true →
      processLine input now1 = processLine input now2) := by
  refine ⟨rfl, rfl, rfl, ?_⟩
  intro h
  obtain ⟨ts0, hts⟩ := Option.isSome_iff_exists.1 h
  simp only [processLine]
  rw [hts]

/-- Witness for C8 at a concrete line carrying its own timestamp. -/
theorem c8_clock_dependence_witness :
    (scanTimestamp (scanLevel (scanSource
        (rustSplitChar ' ' (rustTrim "2023-06-01 12:00:00.500 hi"))).2).2).1.isSome = true ∧
    processLine "2023-06-01 12:00:00.500 hi" ⟨2023, 1, 1, 0, 0, 0, 0⟩ =
      processLine "2023-06-01 12:00:00.500 hi" ⟨2024, 2, 2, 2, 2, 2, 0⟩ :=
  ⟨rfl, (c8_clock_dependence "2023-06-01 12:00:00.500 hi" _ _).2.2.2 rfl⟩
